import Mathlib

/-!
# WebSocket-Arduino: the connection session of `WebSocket.h`

A shallow embedding of the class `WebSocket` of `src/WebSocket.h` (a hixie-75
WebSocket endpoint for the Arduino Ethernet shield) and the properties of its
handshake validation, frame loop, action registry and teardown.

Modelling conventions.

* A byte is a `Fin 256`.  `Client::read()` returns an `int`: the byte, or `-1`
  when nothing is available.  The source stores that result in a `char`, which
  on the AVR targets of the library is a signed 8 bit integer, so the stored
  value is `toChar r`, and `0xFF` and `-1` become the same `char`.
* The text buffer (`String` of `WString.h`) is not part of the repository: it
  is an unbounded list of bytes, `append` adds one byte at the end and
  `contains` is the substring test.
* The transport (`Client`, `Server`) and the clock (`millis`) are not part of
  the repository either.  The results of the coming `read()` calls are a script
  carried by the client, the results of `millis()` and `connected()` are given
  by an environment indexed by the number of calls made so far.
* A handler is user code behind a function pointer.  A call of a handler is
  recorded, with the payload it receives, in the history field `calls`; every
  call of `executeActions` is recorded in the history field `dispatched`.
  What the body of a handler does with the session and the text it receives
  is outside the repository and is not modelled.
* An access outside `socket_actions`, or a call through a slot that was never
  written, is undefined behaviour in the source and is a `Fault` here.
-/

namespace WebSocketArduino

/-! ## Bytes, characters and text -/

/-- One byte on the wire. -/
abbrev Byte := Fin 256

/-- Modelled from the spec: the text buffer `String` of `WString.h`, which is
not in the repository.  Its content is the list of the bytes it holds, in
order, without bound on the length. -/
abbrev Str := List Byte

/-- Identity of a handler: the function pointer stored by `addAction`. -/
abbrev Action := Nat

/-- Bytes of a string literal of the source (all of them are ASCII). -/
def lit (s : String) : Str := s.toList.map (fun c => Fin.ofNat c.toNat)

/-- Line terminator of the handshake, `#define CRLF "\r\n"`. -/
def CRLF : Str := lit "\r\n"

/-- Timeout interval in milliseconds, `#define TIMEOUT_IN_MS 30000`. -/
def TIMEOUT_IN_MS : Nat := 30000

/-- Initial size handed to the text buffers, `#define BUFFER 32`. -/
def BUFFER : Nat := 32

/-- Number of slots of the action table, `#define ACTION_SPACE 5`. -/
def ACTION_SPACE : Nat := 5

/-- Conversion of an `int` to the signed 8 bit `char` of the target. -/
def toChar (r : Int) : Int := (r + 128) % 256 - 128

/-- Conversion `(uint8_t)c` of a `char`, also the byte a `char` is stored as. -/
def toUInt8 (c : Int) : Byte := ⟨(c % 256).toNat, by omega⟩

/-- Arithmetic of `unsigned long`, 32 bits wide on the target. -/
def toULong (n : Nat) : Nat := n % 2 ^ 32

/-- Modelled from the spec: the substring test `String::contains` of
`WString.h`, which is not in the repository.  Some suffix of the buffer
starts with the searched text. -/
def contains (buffer needle : Str) : Bool :=
  buffer.tails.any (fun t => needle.isPrefixOf t)

/-! ## The transport -/

/-- Modelled from the spec: the transport `Client` of the Ethernet library,
which is not in the repository, with the operations the specification lists
(read a byte or the end sentinel, write bytes, flush, close).  The state of
the handle `socket_client` goes together with what the peer will send: `rx`
lists the results of the coming `read()` calls (`none` stands
for `-1`, and every call after the end of the script gives `-1`), `tx` the
bytes written so far, `flushed` tells that no byte was written since the last
`flush()`, `stopped` that `stop()` was called, and `sock` is the socket number
the handle was built from. -/
structure Client where
  sock : Nat
  rx : List (Option Byte)
  tx : List Byte
  flushed : Bool
  stopped : Bool
deriving DecidableEq, Repr

/-- Value of one entry of the read script as the `int` that `read()` returns. -/
def readResult : Option Byte → Int
  | none => -1
  | some b => (b.val : Int)

/-- Modelled from the spec: result of `socket_client.read()`, the next byte
as an `int`, or `-1` when there is none. -/
def Client.read (c : Client) : Int × Client :=
  match c.rx with
  | [] => (-1, c)
  | r :: rest => (readResult r, { c with rx := rest })

/-- Modelled from the spec: effect of `socket_client.write(...)` of the given
bytes. -/
def Client.write (bytes : List Byte) (c : Client) : Client :=
  { c with tx := c.tx ++ bytes, flushed := false }

/-- Modelled from the spec: effect of `socket_client.flush()`, which pushes
the pending output. -/
def Client.flush (c : Client) : Client := { c with flushed := true }

/-- Modelled from the spec: effect of `socket_client.stop()`, which closes the
transport. -/
def Client.stop (c : Client) : Client := { c with stopped := true }

/-- Modelled from the spec: effect of `socket_client = false`, by which the
handle becomes `Client(0)`. -/
def Client.assignFalse (c : Client) : Client := { c with sock := 0 }

/-- Behaviour of the clock and of the link, taken as a parameter: `millisAt n` is the result of the
`n`-th call of `millis()` (before truncation to 32 bits), `connectedAt n` the
result of the `n`-th call of `socket_client.connected()`. -/
structure Env where
  millisAt : Nat → Nat
  connectedAt : Nat → Bool

/-! ## The session -/

/-- Undefined behaviour reached in the action table. -/
inductive Fault where
  | outOfBounds (index : Nat)
  | uninitialised (index : Nat)
deriving DecidableEq, Repr

/-- State of a `WebSocket` object.  The fields up to
`socket_actions_population` are the members of the class (`port` is the
argument of `socket_server`); `millisCalls` and `connectedCalls` count the
calls made to the environment, `dispatched` lists the payloads handed to
`executeActions` and `calls` the handler calls made, oldest first. -/
structure WebSocket where
  port : Nat
  socket_client : Client
  socket_urlPrefix : Str
  socket_reading : Bool
  socket_actions : List (Option Action)
  socket_actions_population : Nat
  millisCalls : Nat
  connectedCalls : Nat
  dispatched : List Str
  calls : List (Action × Str)
deriving DecidableEq, Repr

/-- Constructor `WebSocket::WebSocket(urlPrefix, port)`.  It does not
initialise `socket_reading`, whose indeterminate value is `reading0`, nor the
slots of `socket_actions`. -/
def WebSocket.new (urlPrefix : Str) (port : Nat) (reading0 : Bool) : WebSocket :=
  { port := port
    socket_client := { sock := 255, rx := [], tx := [], flushed := true, stopped := false }
    socket_urlPrefix := urlPrefix
    socket_reading := reading0
    socket_actions := List.replicate ACTION_SPACE none
    socket_actions_population := 0
    millisCalls := 0
    connectedCalls := 0
    dispatched := []
    calls := [] }

/-- Call of `millis()`: the 32 bit reading of the clock. -/
def millis (e : Env) (s : WebSocket) : Nat × WebSocket :=
  (toULong (e.millisAt s.millisCalls), { s with millisCalls := s.millisCalls + 1 })

/-- Call of `socket_client.connected()`. -/
def connected (e : Env) (s : WebSocket) : Bool × WebSocket :=
  (e.connectedAt s.connectedCalls, { s with connectedCalls := s.connectedCalls + 1 })

/-- Effect of `WebSocket::sendHandshake`: the eleven writes of the source. -/
def sendHandshake (s : WebSocket) : WebSocket :=
  let c := s.socket_client
  let c := c.write (lit "HTTP/1.1 101 Web Socket Protocol Handshake")
  let c := c.write CRLF
  let c := c.write (lit "Upgrade: WebSocket")
  let c := c.write CRLF
  let c := c.write (lit "Connection: Upgrade")
  let c := c.write CRLF
  let c := c.write (lit "WebSocket-Origin: file://")
  let c := c.write CRLF
  let c := c.write (lit "WebSocket-Location: ws://192.168.1.170:8080/")
  let c := c.write CRLF
  let c := c.write CRLF
  { s with socket_client := c }

/-- Loop `while((bite = socket_client.read()) != -1) headerString.append(bite)`
of `analyzeRequest`, run on the script of coming reads: it gives the header
read and the script left.  A read past the end of the script gives `-1`. -/
def readHeader (headerString : Str) : List (Option Byte) → Str × List (Option Byte)
  | [] => (headerString, [])
  | r :: rest =>
    let bite := toChar (readResult r)
    if bite ≠ -1 then readHeader (headerString ++ [toUInt8 bite]) rest
    else (headerString, rest)

/-- Method `WebSocket::analyzeRequest`: the decision and the new state. -/
def analyzeRequest (_bufferLength : Nat) (s : WebSocket) : Bool × WebSocket :=
  let (headerString, rest) := readHeader [] s.socket_client.rx
  let s := { s with socket_client := { s.socket_client with rx := rest } }
  if contains headerString (lit "Upgrade: WebSocket") then
    let s := sendHandshake s
    (true, { s with socket_reading := true })
  else
    (false, s)

/-- Method `WebSocket::disconnectStream`. -/
def disconnectStream (s : WebSocket) : WebSocket :=
  let s := { s with socket_reading := false }
  let s := { s with socket_client := s.socket_client.flush }
  let s := { s with socket_client := s.socket_client.stop }
  { s with socket_client := s.socket_client.assignFalse }

/-- Method `WebSocket::actionWrite`; `str` is the content of the C string. -/
def actionWrite (str : Str) (s : WebSocket) : WebSocket :=
  let c := s.socket_client
  let c := c.write [0x00]
  let c := c.write str
  let c := c.write [0xFF]
  { s with socket_client := c }

/-- Method `WebSocket::addAction`.  The guard compares the population with
`SIZE(socket_actions)`, the number of slots; the store goes to the slot
numbered by the old population, which is then incremented.  A store beyond the
last slot is a fault. -/
def addAction (socketAction : Action) (s : WebSocket) : Except Fault WebSocket :=
  if s.socket_actions_population ≤ s.socket_actions.length then
    if s.socket_actions_population < s.socket_actions.length then
      .ok { s with
        socket_actions := s.socket_actions.set s.socket_actions_population (some socketAction)
        socket_actions_population := s.socket_actions_population + 1 }
    else .error (.outOfBounds s.socket_actions_population)
  else .ok s

/-- Registration of a list of handlers by successive `addAction` calls. -/
def addActions (hs : List Action) (s : WebSocket) : Except Fault WebSocket :=
  hs.foldlM (fun st h => addAction h st) s

/-- Body of the loop of `executeActions`:
`socket_actions[i].socketAction(*this, socketString)`. -/
def invoke (socketString : Str) (s : WebSocket) (i : Nat) : Except Fault WebSocket :=
  match s.socket_actions[i]? with
  | some (some a) => .ok { s with calls := s.calls ++ [(a, socketString)] }
  | some none => .error (.uninitialised i)
  | none => .error (.outOfBounds i)

/-- Method `WebSocket::executeActions`: the loop over
`i = 0 .. socket_actions_population - 1`. -/
def executeActions (socketString : Str) (s : WebSocket) : Except Fault WebSocket :=
  (List.range s.socket_actions_population).foldlM (invoke socketString)
    { s with dispatched := s.dispatched ++ [socketString] }

/-- Place of the control inside `socketStream`: at the test of the outer
`while`, or at the test of the inner `while` with the locals of the pass. -/
inductive Pos where
  | outer
  | inner (timeoutTime : Nat) (socketString : Str)
deriving DecidableEq, Repr

/-- Result of running a method that contains the frame loop with a bounded
number of steps: it returned, it is still at some place of the loop, or it
reached undefined behaviour. -/
inductive Run where
  | done (s : WebSocket)
  | running (p : Pos) (s : WebSocket)
  | fault (f : Fault)
deriving DecidableEq, Repr

/-- Loops of `WebSocket::socketStream`, one loop test per unit of `fuel`.
At `Pos.outer` the test is `socket_reading`; a new pass creates an empty
`socketString` and computes `timeoutTime = millis() + TIMEOUT_IN_MS`.
At `Pos.inner` the test is `(bite = socket_client.read()) && socket_reading`;
when it fails `executeActions(socketString)` runs and the control goes back
to the outer test. -/
def socketStreamFrom (e : Env) : Nat → Pos → WebSocket → Run
  | 0, p, s => .running p s
  | fuel + 1, .outer, s =>
    if s.socket_reading then
      let (now, s) := millis e s
      socketStreamFrom e fuel (.inner (toULong (now + TIMEOUT_IN_MS)) []) s
    else .done s
  | fuel + 1, .inner timeoutTime socketString, s =>
    let (r, c) := s.socket_client.read
    let s := { s with socket_client := c }
    let bite := toChar r
    if bite ≠ 0 ∧ s.socket_reading = true then
      if toUInt8 bite ≠ 0xFF then
        socketStreamFrom e fuel (.inner timeoutTime (socketString ++ [toUInt8 bite])) s
      else
        let (currentTime, s) := millis e s
        if currentTime > timeoutTime then
          let (up, s) := connected e s
          if !up then
            socketStreamFrom e fuel (.inner timeoutTime socketString) (disconnectStream s)
          else socketStreamFrom e fuel (.inner timeoutTime socketString) s
        else socketStreamFrom e fuel (.inner timeoutTime socketString) s
    else
      match executeActions socketString s with
      | .ok s => socketStreamFrom e fuel .outer s
      | .error f => .fault f

/-- Method `WebSocket::socketStream`, run for at most `fuel` loop tests. -/
def socketStream (e : Env) (fuel : Nat) (_socketBufferLength : Nat) (s : WebSocket) : Run :=
  socketStreamFrom e fuel .outer s

/-- Method `WebSocket::connectionRequest`; `incoming` is the client given by
`socket_server.available()`. -/
def connectionRequest (e : Env) (fuel : Nat) (incoming : Client) (s : WebSocket) : Run :=
  let s := { s with socket_client := incoming }
  let bufferLength := BUFFER
  let socketBufferLength := BUFFER
  let (up, s) := connected e s
  if up then
    let (upgrade, s) := analyzeRequest bufferLength s
    if upgrade then socketStream e fuel socketBufferLength s
    else .done (disconnectStream s)
  else .done s

/-! ## Auxiliary definitions used in the statements -/

/-- Test that a read script starts with the end of a request: it is empty, or
its first entry is the `-1` sentinel. -/
def endsRequest : List (Option Byte) → Bool
  | [] => true
  | none :: _ => true
  | some _ :: _ => false

/-- The text `"Upgrade: WebSocket"` searched by `analyzeRequest`. -/
def upgradeField : Str := lit "Upgrade: WebSocket"

/-- The handshake of the specification for host `192.168.1.170`, port `8080`. -/
def handshakeTemplate : Str :=
  lit ("HTTP/1.1 101 Web Socket Protocol Handshake\r\n" ++
    "Upgrade: WebSocket\r\n" ++
    "Connection: Upgrade\r\n" ++
    "WebSocket-Origin: file://\r\n" ++
    "WebSocket-Location: ws://192.168.1.170:8080/\r\n" ++
    "\r\n")

/-- A client just accepted by the server, with the given read script. -/
def accepted (rx : List (Option Byte)) : Client :=
  { sock := 1, rx := rx, tx := [], flushed := true, stopped := false }

/-- A session built by `WebSocket("/", 8080)` whose client is `accepted rx`
and whose reading flag has the given value. -/
def sessionOn (rx : List (Option Byte)) (reading : Bool) : WebSocket :=
  { WebSocket.new (lit "/") 8080 reading with socket_client := accepted rx }

/-- A well-formed HTTP request without the upgrade field. -/
def plainGet : Str := lit "GET / HTTP/1.1\r\nHost: arduino\r\n\r\n"

/-- An environment whose clock gains one second from one reading to the next
and whose link is always reported up. -/
def linkUp : Env := { millisAt := fun n => 1000 * n, connectedAt := fun _ => true }

/-- An environment whose clock gains ten seconds from one reading to the next
and whose link is always reported down. -/
def linkDown : Env := { millisAt := fun n => 10000 * n, connectedAt := fun _ => false }

/-- An environment like `linkDown` whose link is reported up the first time
it is asked. -/
def linkLost : Env := { millisAt := fun n => 10000 * n, connectedAt := fun n => n == 0 }

/-- The stream `A B 0xFF C D 0xFF` of the frame boundary scenario. -/
def twoFrames : List Byte := [0x41, 0x42, 0xFF, 0x43, 0x44, 0xFF]

/-- A session in the frame loop (reading flag set) whose action table holds
the handlers `hs` and whose client is `accepted rx`. -/
def streamingSession (rx : List (Option Byte)) (hs : List Action) : WebSocket :=
  { sessionOn rx true with
    socket_actions := hs.map some ++ List.replicate (ACTION_SPACE - hs.length) none
    socket_actions_population := hs.length }

/-- The state carried by a result: the one returned, or the one reached when
the steps ran out; none after a fault. -/
def Run.state? : Run → Option WebSocket
  | .done s => some s
  | .running _ s => some s
  | .fault _ => none

/-- The payload accumulated at a place of the loop: `socketString` inside a
pass, nothing at the test of the outer loop. -/
def Pos.acc : Pos → Str
  | .outer => []
  | .inner _ socketString => socketString

/-- An environment whose clock starts one second before the 32 bit counter
wraps, gains ten milliseconds from one reading to the next, and whose link is
always reported down. -/
def wrapClock : Env :=
  { millisAt := fun n => 2 ^ 32 - 1000 + 10 * n, connectedAt := fun _ => false }

/-- The frames as the observed behaviour describes them, written without
reference to the loop: the read script is cut at each `0x00` byte, the `0xFF`
bytes and the `-1` sentinels are left out.  The result lists the pieces that
a `0x00` byte ended, in order, and gives the piece after the last `0x00`;
`acc` is what the first piece already holds. -/
def splitAtZero (acc : Str) : List (Option Byte) → List Str × Str
  | [] => ([], acc)
  | none :: rest => splitAtZero acc rest
  | some b :: rest =>
    if b = 0x00 then (acc :: (splitAtZero [] rest).1, (splitAtZero [] rest).2)
    else if b = 0xFF then splitAtZero acc rest
    else splitAtZero (acc ++ [b]) rest

/-- Relation between a result `r` of the frame loop and the read script `rx0`
it started on, with `acc` accumulated and `d0` dispatched at the start.  Some
part `pre` of the script was read with the reading flag set.  Either the
loop is still running, what was dispatched since the start are the pieces of
`pre` ended by a `0x00` byte and the piece after the last `0x00` is the
payload accumulated; or the flag was cleared, the loop left the pass after
one more read, and that last piece was dispatched as well. -/
def Decoded (acc : Str) (rx0 : List (Option Byte)) (d0 : List Str) (r : Run) : Prop :=
  ∃ pre post, rx0 = pre ++ post ∧
    ((∃ pos s', r = .running pos s' ∧ s'.socket_client.rx = post ∧
        pos.acc = (splitAtZero acc pre).2 ∧
        s'.dispatched = d0 ++ (splitAtZero acc pre).1) ∨
     (∃ s', (r = .running .outer s' ∨ r = .done s') ∧ s'.socket_reading = false ∧
        s'.socket_client.rx = post.tail ∧
        s'.dispatched = d0 ++ (splitAtZero acc pre).1 ++ [(splitAtZero acc pre).2]))

/-- A read script with two frames, a teardown in the second, and two bytes
after it: `A 0x00 B 0xFF`, three polls without data, then `C D`. -/
def interrupted : List (Option Byte) :=
  [some 0x41, some 0x00, some 0x42, some 0xFF, none, none, none, some 0x43, some 0x44]

/-! ## Characters and text: basic facts -/

theorem toChar_neg_one : toChar (-1) = -1 := by decide

theorem toUInt8_neg_one : toUInt8 (-1) = 0xFF := by decide

theorem toUInt8_toChar_val (b : Byte) : toUInt8 (toChar (b.val : Int)) = b := by
  apply Fin.ext
  have hb := b.isLt
  simp only [toUInt8, toChar]
  omega

theorem toChar_val_eq_neg_one (b : Byte) : toChar (b.val : Int) = -1 ↔ b = 0xFF := by
  have hb := b.isLt
  constructor
  · intro h
    apply Fin.ext
    simp only [toChar] at h
    show b.val = 255
    omega
  · intro h
    subst h
    decide

theorem toChar_val_eq_zero (b : Byte) : toChar (b.val : Int) = 0 ↔ b = 0 := by
  have hb := b.isLt
  constructor
  · intro h
    apply Fin.ext
    simp only [toChar] at h
    show b.val = 0
    omega
  · intro h
    subst h
    decide

theorem contains_iff_substring (buffer needle : Str) :
    contains buffer needle = true ↔ needle <:+: buffer := by
  simp only [contains, List.any_eq_true, List.mem_tails, List.isPrefixOf_iff_prefix]
  rw [List.infix_iff_prefix_suffix]
  constructor
  · rintro ⟨t, ht, hp⟩
    exact ⟨t, hp, ht⟩
  · rintro ⟨t, hp, ht⟩
    exact ⟨t, ht, hp⟩

/-! ## Handshake validation -/

theorem readHeader_initial (req : List Byte) (tail : List (Option Byte))
    (hend : endsRequest tail = true) (acc : Str) :
    ∃ pre, pre <+: req ∧ (readHeader acc (req.map some ++ tail)).1 = acc ++ pre := by
  induction req generalizing acc with
  | nil =>
    refine ⟨[], List.prefix_refl _, ?_⟩
    match tail, hend with
    | [], _ => simp [readHeader]
    | none :: rest, _ => simp [readHeader, readResult, toChar_neg_one]
  | cons b req ih =>
    by_cases hb : b = 0xFF
    · refine ⟨[], List.nil_prefix, ?_⟩
      subst hb
      have h : toChar (((0xFF : Byte).val : Nat) : Int) = -1 := by decide
      simp [readHeader, readResult, h]
    · obtain ⟨pre, hpre, hrun⟩ := ih (acc ++ [b])
      refine ⟨b :: pre, ?_, ?_⟩
      · exact (List.prefix_cons_inj b).mpr hpre
      · have hne : toChar (b.val : Int) ≠ -1 := fun h => hb ((toChar_val_eq_neg_one b).mp h)
        simp only [List.map_cons, List.cons_append, readHeader, readResult, hne, ne_eq,
          not_false_eq_true, if_true, toUInt8_toChar_val]
        exact hrun.trans (by simp)

theorem readHeader_clean (req : List Byte) (tail : List (Option Byte))
    (hend : endsRequest tail = true) (hff : (0xFF : Byte) ∉ req) (acc : Str) :
    readHeader acc (req.map some ++ tail) = (acc ++ req, tail.tail) := by
  induction req generalizing acc with
  | nil =>
    match tail, hend with
    | [], _ => simp [readHeader]
    | none :: rest, _ => simp [readHeader, readResult, toChar_neg_one]
  | cons b req ih =>
    have hb : b ≠ 0xFF := fun h => hff (by simp [h])
    have hreq : (0xFF : Byte) ∉ req := fun h => hff (List.mem_cons_of_mem _ h)
    have hne : toChar (b.val : Int) ≠ -1 := fun h => hb ((toChar_val_eq_neg_one b).mp h)
    simp only [List.map_cons, List.cons_append, readHeader, readResult, hne, ne_eq,
      not_false_eq_true, if_true, toUInt8_toChar_val]
    exact (ih hreq _).trans (by simp)

theorem sendHandshake_tx (s : WebSocket) :
    (sendHandshake s).socket_client.tx = s.socket_client.tx ++ handshakeTemplate := by
  have h : lit "HTTP/1.1 101 Web Socket Protocol Handshake" ++ (CRLF ++ (lit "Upgrade: WebSocket"
      ++ (CRLF ++ (lit "Connection: Upgrade" ++ (CRLF ++ (lit "WebSocket-Origin: file://"
      ++ (CRLF ++ (lit "WebSocket-Location: ws://192.168.1.170:8080/" ++ (CRLF ++ CRLF)))))))))
      = handshakeTemplate := by decide
  simp only [sendHandshake, Client.write, List.append_assoc, h]

/-- What `analyzeRequest` does on a request without `0xFF` byte that holds the
upgrade field: it accepts, writes the handshake and sets the reading flag. -/
theorem analyzeRequest_accepts (s : WebSocket) (bufferLength : Nat) (req : List Byte)
    (tail : List (Option Byte)) (hrx : s.socket_client.rx = req.map some ++ tail)
    (hend : endsRequest tail = true) (hff : (0xFF : Byte) ∉ req)
    (hup : upgradeField <:+: req) :
    (analyzeRequest bufferLength s).1 = true ∧
    (analyzeRequest bufferLength s).2.socket_reading = true ∧
    (analyzeRequest bufferLength s).2.socket_client.tx
      = s.socket_client.tx ++ handshakeTemplate := by
  have hc : contains req (lit "Upgrade: WebSocket") = true :=
    (contains_iff_substring _ _).mpr hup
  have hr := readHeader_clean req tail hend hff []
  simp only [List.nil_append] at hr
  simp only [analyzeRequest, hrx, hr, hc, if_true, sendHandshake_tx, and_self]

/-- C3, failing input: the request made of one `0xFF` byte followed by
`"Upgrade: WebSocket"` contains the upgrade field, yet `analyzeRequest` takes
the `0xFF` byte for the `-1` sentinel, stops reading there, returns `false`,
writes nothing and leaves the reading flag unset. -/
theorem analyzeRequest_stops_at_0xFF :
    upgradeField <:+: (0xFF :: upgradeField) ∧
    analyzeRequest BUFFER (sessionOn ((0xFF :: upgradeField).map some) false)
      = (false, sessionOn (upgradeField.map some) false) := by
  refine ⟨List.infix_cons (List.infix_refl _), ?_⟩
  decide

/-- C4: when the request held by the transport (the bytes `req` before the
end of the script or the `-1` sentinel) does not contain
`"Upgrade: WebSocket"`, `analyzeRequest` returns `false` and changes nothing
in the session but the read script: no byte is written and the reading flag
keeps its value. -/
theorem analyzeRequest_rejects (s : WebSocket) (bufferLength : Nat) (req : List Byte)
    (tail : List (Option Byte)) (hrx : s.socket_client.rx = req.map some ++ tail)
    (hend : endsRequest tail = true) (hno : ¬ upgradeField <:+: req) :
    (∃ rest, analyzeRequest bufferLength s
      = (false, { s with socket_client := { s.socket_client with rx := rest } })) ∧
    (analyzeRequest bufferLength s).1 = false ∧
    (analyzeRequest bufferLength s).2.socket_client.tx = s.socket_client.tx ∧
    (analyzeRequest bufferLength s).2.socket_reading = s.socket_reading := by
  obtain ⟨pre, hpre, hrun⟩ := readHeader_initial req tail hend []
  have hc : contains (readHeader [] (req.map some ++ tail)).1 (lit "Upgrade: WebSocket")
      = false := by
    rw [Bool.eq_false_iff]
    intro h
    rw [contains_iff_substring, hrun, List.nil_append] at h
    exact hno (h.trans hpre.isInfix)
  have hmain : analyzeRequest bufferLength s
      = (false, { s with socket_client :=
          { s.socket_client with rx := (readHeader [] (req.map some ++ tail)).2 } }) := by
    simp only [analyzeRequest, hrx, hc]
    rfl
  refine ⟨⟨_, hmain⟩, ?_, ?_, ?_⟩ <;> rw [hmain]

/-- Instance of the rejection: a well-formed `GET` without the upgrade
field. -/
theorem analyzeRequest_rejects_witness :
    (∃ rest, analyzeRequest BUFFER (sessionOn (plainGet.map some) false)
      = (false, { sessionOn (plainGet.map some) false with
          socket_client := { (sessionOn (plainGet.map some) false).socket_client with
            rx := rest } })) ∧
    (analyzeRequest BUFFER (sessionOn (plainGet.map some) false)).1 = false ∧
    (analyzeRequest BUFFER (sessionOn (plainGet.map some) false)).2.socket_client.tx = [] ∧
    (analyzeRequest BUFFER (sessionOn (plainGet.map some) false)).2.socket_reading = false :=
  analyzeRequest_rejects (sessionOn (plainGet.map some) false) BUFFER plainGet []
    (by simp [sessionOn, accepted]) (by decide)
    (by rw [← contains_iff_substring]; decide)

/-! ## The action registry -/

theorem invoke_registered (p : Str) (hs : List Action) (rest : List (Option Action))
    (st : WebSocket) (htab : st.socket_actions = hs.map some ++ rest) (k : Nat)
    (hk : k < hs.length) :
    invoke p st k = .ok { st with calls := st.calls ++ [(hs[k], p)] } := by
  have hget : st.socket_actions[k]? = some (some hs[k]) := by
    rw [htab, List.getElem?_append_left (by simpa using hk)]
    simp [hk]
  simp only [invoke, hget]

theorem foldlM_invoke (p : Str) (hs : List Action) (rest : List (Option Action)) :
    ∀ (k : Nat) (st : WebSocket), st.socket_actions = hs.map some ++ rest → k ≤ hs.length →
      (List.range k).foldlM (invoke p) st
        = .ok { st with calls := st.calls ++ (hs.take k).map (fun h => (h, p)) } := by
  intro k
  induction k with
  | zero =>
    intro st _ _
    simp only [List.range_zero, List.foldlM_nil, List.take_zero, List.map_nil,
      List.append_nil]
    rfl
  | succ k ih =>
    intro st htab hk
    have hlt : k < hs.length := hk
    rw [List.range_succ, List.foldlM_append, ih st htab (Nat.le_of_lt hlt)]
    have hstep := invoke_registered p hs rest
      { st with calls := st.calls ++ (hs.take k).map (fun h => (h, p)) } htab k hlt
    have htake : hs.take (k + 1) = hs.take k ++ [hs[k]] := by
      rw [List.take_succ, List.getElem?_eq_getElem hlt]
      rfl
    simp only [List.foldlM_cons, List.foldlM_nil, htake, List.map_append, List.map_cons,
      List.map_nil]
    show (invoke p _ k >>= pure) = _
    rw [hstep]
    simp only [List.append_assoc]
    rfl

/-- What `executeActions` does on a registry that holds the handlers `hs`:
one call per handler, in the order of `hs`, each with the payload given. -/
theorem executeActions_ok (p : Str) (hs : List Action) (rest : List (Option Action))
    (s : WebSocket) (htab : s.socket_actions = hs.map some ++ rest)
    (hpop : s.socket_actions_population = hs.length) :
    executeActions p s
      = .ok { s with dispatched := s.dispatched ++ [p],
                     calls := s.calls ++ hs.map (fun h => (h, p)) } := by
  have key := foldlM_invoke p hs rest hs.length { s with dispatched := s.dispatched ++ [p] }
    htab (Nat.le_refl _)
  rw [List.take_length, ← hpop] at key
  exact key

theorem addAction_ok (h : Action) (hs : List Action) (r : Option Action)
    (rest : List (Option Action)) (s : WebSocket)
    (htab : s.socket_actions = hs.map some ++ r :: rest)
    (hpop : s.socket_actions_population = hs.length) :
    addAction h s = .ok { s with socket_actions := (hs ++ [h]).map some ++ rest,
                                 socket_actions_population := hs.length + 1 } := by
  have hlen : s.socket_actions.length = hs.length + (rest.length + 1) := by
    rw [htab]; simp
  have hset : s.socket_actions.set hs.length (some h) = (hs ++ [h]).map some ++ rest := by
    rw [htab, List.set_append_right _ _ (by simp)]
    simp
  simp only [addAction, hpop, hlen, hset]
  rw [if_pos (by omega), if_pos (by omega)]

theorem addActions_ok (new : List Action) :
    ∀ (hs : List Action) (rest : List (Option Action)) (s : WebSocket),
      s.socket_actions = hs.map some ++ rest → s.socket_actions_population = hs.length →
      new.length ≤ rest.length →
      addActions new s = .ok { s with socket_actions := (hs ++ new).map some ++ rest.drop new.length,
                                      socket_actions_population := hs.length + new.length } := by
  induction new with
  | nil =>
    intro hs rest s htab hpop _
    simp only [addActions, List.foldlM_nil, List.append_nil, List.length_nil, List.drop_zero,
      Nat.add_zero, ← htab, ← hpop]
    rfl
  | cons h new ih =>
    intro hs rest s htab hpop hlen
    match rest, hlen with
    | r :: rest, hlen =>
      have hstep := addAction_ok h hs r rest s htab hpop
      have hrec := ih (hs ++ [h]) rest
        { s with socket_actions := (hs ++ [h]).map some ++ rest,
                 socket_actions_population := hs.length + 1 } rfl (by simp)
        (by simpa using hlen)
      simp only [addActions, List.foldlM_cons] at hrec ⊢
      show (addAction h s >>= fun st => List.foldlM (fun st h => addAction h st) st new) = _
      rw [hstep]
      show List.foldlM (fun st h => addAction h st) _ new = _
      rw [hrec]
      simp [Nat.add_assoc, Nat.add_comm 1]

/-- C5, failing input: six `addAction` calls on a fresh `WebSocket`.  The
first five fill the table (population `ACTION_SPACE`); the guard
`population <= SIZE(socket_actions)` of the sixth call still holds, so the
call is not a no-op: it stores at index `ACTION_SPACE`, outside
`0 .. ACTION_SPACE - 1`, and would raise the population to
`ACTION_SPACE + 1`. -/
theorem addAction_sixth_store_out_of_bounds :
    (∃ s, addActions [1, 2, 3, 4, 5] (WebSocket.new (lit "/") 8080 false) = .ok s ∧
      s.socket_actions_population = ACTION_SPACE ∧
      s.socket_actions.length = ACTION_SPACE ∧
      s.socket_actions_population ≤ s.socket_actions.length ∧
      addAction 6 s = .error (.outOfBounds ACTION_SPACE)) ∧
    addActions [1, 2, 3, 4, 5, 6] (WebSocket.new (lit "/") 8080 false)
      = .error (.outOfBounds ACTION_SPACE) :=
  ⟨⟨_, rfl, rfl, rfl, by decide, rfl⟩, rfl⟩

/-- C6: after the handlers `hs` (at most `ACTION_SPACE` of them) were
registered on a fresh `WebSocket`, `executeActions p` calls each of them
exactly once, in registration order, each with the payload `p`, and changes
nothing else in the session, which is thus the same for every call. -/
theorem executeActions_registration_order (hs : List Action) (p : Str) (urlPrefix : Str)
    (port : Nat) (reading0 : Bool) (hcap : hs.length ≤ ACTION_SPACE) :
    ∃ s, addActions hs (WebSocket.new urlPrefix port reading0) = .ok s ∧
      executeActions p s
        = .ok { s with dispatched := [p], calls := hs.map (fun h => (h, p)) } := by
  have hreg := addActions_ok hs [] (List.replicate ACTION_SPACE none)
    (WebSocket.new urlPrefix port reading0) rfl rfl (by simpa using hcap)
  refine ⟨_, hreg, ?_⟩
  have hexec := executeActions_ok p hs ((List.replicate ACTION_SPACE none).drop hs.length)
    { WebSocket.new urlPrefix port reading0 with
      socket_actions := ([] ++ hs).map some ++ (List.replicate ACTION_SPACE none).drop hs.length,
      socket_actions_population := ([] : List Action).length + hs.length }
    (by simp) (by simp)
  rw [hexec]
  rfl

/-- Instance of the dispatch order: three handlers, tagged `10`, `20`, `30`,
and the frame `"hi"`; the call log lists the three tags in that order. -/
theorem executeActions_registration_order_witness :
    ∃ s, addActions [10, 20, 30] (WebSocket.new (lit "/") 8080 false) = .ok s ∧
      executeActions (lit "hi") s
        = .ok { s with dispatched := [lit "hi"],
                       calls := [(10, lit "hi"), (20, lit "hi"), (30, lit "hi")] } :=
  executeActions_registration_order [10, 20, 30] (lit "hi") (lit "/") 8080 false (by decide)

/-- C7: `actionWrite p` writes exactly `0x00`, the bytes of `p`, `0xFF`, in
that order, after what was written before, and changes nothing else in the
session: the reading flag, the action table and its population are the
same. -/
theorem actionWrite_frames (p : Str) (s : WebSocket) :
    (actionWrite p s).socket_client.tx = s.socket_client.tx ++ ([0x00] ++ p ++ [0xFF]) ∧
    actionWrite p s = { s with socket_client := { s.socket_client with
      tx := s.socket_client.tx ++ ([0x00] ++ p ++ [0xFF]), flushed := false } } ∧
    (actionWrite p s).socket_reading = s.socket_reading ∧
    (actionWrite p s).socket_actions = s.socket_actions ∧
    (actionWrite p s).socket_actions_population = s.socket_actions_population := by
  simp [actionWrite, Client.write]

/-- C9: `disconnectStream` applied twice gives the state that one application
gives; in that state the reading flag is false, the transport is flushed and
closed, and the action table and its population are those of the state
before. -/
theorem disconnectStream_idempotent (s : WebSocket) :
    disconnectStream (disconnectStream s) = disconnectStream s ∧
    (disconnectStream s).socket_reading = false ∧
    (disconnectStream s).socket_client.flushed = true ∧
    (disconnectStream s).socket_client.stopped = true ∧
    (disconnectStream s).socket_actions = s.socket_actions ∧
    (disconnectStream s).socket_actions_population = s.socket_actions_population := by
  simp [disconnectStream, Client.flush, Client.stop, Client.assignFalse]

/-! ## The frame loop, one loop test at a time -/

theorem socketStreamFrom_outer_reading (e : Env) (fuel : Nat) (s : WebSocket)
    (h : s.socket_reading = true) :
    socketStreamFrom e (fuel + 1) .outer s
      = socketStreamFrom e fuel
          (.inner (toULong (toULong (e.millisAt s.millisCalls) + TIMEOUT_IN_MS)) [])
          { s with millisCalls := s.millisCalls + 1 } := by
  simp [socketStreamFrom, millis, h]

theorem socketStreamFrom_outer_idle (e : Env) (fuel : Nat) (s : WebSocket)
    (h : s.socket_reading = false) :
    socketStreamFrom e (fuel + 1) .outer s = .done s := by
  simp [socketStreamFrom, h]

theorem socketStreamFrom_inner_exit (e : Env) (fuel : Nat) (tt : Nat) (str : Str)
    (s : WebSocket)
    (h : toChar s.socket_client.read.1 = 0 ∨ s.socket_reading = false) :
    socketStreamFrom e (fuel + 1) (.inner tt str) s
      = match executeActions str { s with socket_client := s.socket_client.read.2 } with
        | .ok s => socketStreamFrom e fuel .outer s
        | .error f => .fault f := by
  have hc : ¬ (toChar s.socket_client.read.1 ≠ 0 ∧ s.socket_reading = true) := by
    rcases h with h | h
    · exact fun hh => hh.1 h
    · exact fun hh => by simp [h] at hh
  simp only [socketStreamFrom, hc, if_false]

theorem socketStreamFrom_inner_append (e : Env) (fuel : Nat) (tt : Nat) (str : Str)
    (s : WebSocket) (h0 : toChar s.socket_client.read.1 ≠ 0) (hr : s.socket_reading = true)
    (hff : toUInt8 (toChar s.socket_client.read.1) ≠ 0xFF) :
    socketStreamFrom e (fuel + 1) (.inner tt str) s
      = socketStreamFrom e fuel (.inner tt (str ++ [toUInt8 (toChar s.socket_client.read.1)]))
          { s with socket_client := s.socket_client.read.2 } := by
  simp only [socketStreamFrom, h0, hr, hff, ne_eq, not_false_eq_true, and_self, if_true]

theorem socketStreamFrom_inner_early (e : Env) (fuel : Nat) (tt : Nat) (str : Str)
    (s : WebSocket) (h0 : toChar s.socket_client.read.1 ≠ 0) (hr : s.socket_reading = true)
    (hff : toUInt8 (toChar s.socket_client.read.1) = 0xFF)
    (ht : ¬ toULong (e.millisAt s.millisCalls) > tt) :
    socketStreamFrom e (fuel + 1) (.inner tt str) s
      = socketStreamFrom e fuel (.inner tt str)
          { s with socket_client := s.socket_client.read.2,
                   millisCalls := s.millisCalls + 1 } := by
  simp only [socketStreamFrom, millis, h0, hr, hff, ht, ne_eq, not_false_eq_true, and_self,
    if_true, if_false, not_true_eq_false]

theorem socketStreamFrom_inner_up (e : Env) (fuel : Nat) (tt : Nat) (str : Str)
    (s : WebSocket) (h0 : toChar s.socket_client.read.1 ≠ 0) (hr : s.socket_reading = true)
    (hff : toUInt8 (toChar s.socket_client.read.1) = 0xFF)
    (ht : toULong (e.millisAt s.millisCalls) > tt)
    (hup : e.connectedAt s.connectedCalls = true) :
    socketStreamFrom e (fuel + 1) (.inner tt str) s
      = socketStreamFrom e fuel (.inner tt str)
          { s with socket_client := s.socket_client.read.2,
                   millisCalls := s.millisCalls + 1,
                   connectedCalls := s.connectedCalls + 1 } := by
  simp [socketStreamFrom, millis, connected, h0, hr, hff, ht, hup]

theorem socketStreamFrom_inner_down (e : Env) (fuel : Nat) (tt : Nat) (str : Str)
    (s : WebSocket) (h0 : toChar s.socket_client.read.1 ≠ 0) (hr : s.socket_reading = true)
    (hff : toUInt8 (toChar s.socket_client.read.1) = 0xFF)
    (ht : toULong (e.millisAt s.millisCalls) > tt)
    (hup : e.connectedAt s.connectedCalls = false) :
    socketStreamFrom e (fuel + 1) (.inner tt str) s
      = socketStreamFrom e fuel (.inner tt str)
          (disconnectStream { s with socket_client := s.socket_client.read.2,
                                     millisCalls := s.millisCalls + 1,
                                     connectedCalls := s.connectedCalls + 1 }) := by
  simp [socketStreamFrom, millis, connected, h0, hr, hff, ht, hup]

/-! ## Reads -/

theorem read_no_zero (c : Client) (h : (some 0 : Option Byte) ∉ c.rx) :
    toChar c.read.1 ≠ 0 ∧ (some 0 : Option Byte) ∉ c.read.2.rx := by
  cases hrx : c.rx with
  | nil =>
    have hread : c.read = (-1, c) := by simp [Client.read, hrx]
    rw [hread]
    have hm : toChar (-1) ≠ 0 := by decide
    exact ⟨hm, h⟩
  | cons r rest =>
    have hread : c.read = (readResult r, { c with rx := rest }) := by
      simp [Client.read, hrx]
    rw [hread]
    rw [hrx] at h
    refine ⟨?_, fun hm => h (List.mem_cons_of_mem _ hm)⟩
    cases r with
    | none =>
      have hm : toChar (-1) ≠ 0 := by decide
      exact hm
    | some b =>
      intro hz
      have hb : b = 0 := (toChar_val_eq_zero b).mp hz
      exact h (by simp [hb])

theorem read_keeps (c : Client) :
    c.read.2.tx = c.tx ∧ c.read.2.flushed = c.flushed ∧ c.read.2.stopped = c.stopped ∧
    c.read.2.sock = c.sock := by
  unfold Client.read
  split <;> exact ⟨rfl, rfl, rfl, rfl⟩

/-! ## The frame loop: a stream without `0x00` byte on a link that stays up -/

/-- While the link is reported up and no `0x00` byte arrives, the inner loop
of `socketStream` goes on for ever and `executeActions` is never called. -/
theorem socketStreamFrom_no_zero (e : Env) (hconn : ∀ n, e.connectedAt n = true) :
    ∀ (fuel : Nat) (tt : Nat) (str : Str) (s : WebSocket), s.socket_reading = true →
      (some 0 : Option Byte) ∉ s.socket_client.rx →
      ∃ str' s', socketStreamFrom e fuel (.inner tt str) s = .running (.inner tt str') s' ∧
        s'.dispatched = s.dispatched ∧ s'.calls = s.calls := by
  intro fuel
  induction fuel with
  | zero =>
    intro tt str s _ _
    exact ⟨str, s, rfl, rfl, rfl⟩
  | succ fuel ih =>
    intro tt str s hr hz
    obtain ⟨h0, hz'⟩ := read_no_zero s.socket_client hz
    by_cases hff : toUInt8 (toChar s.socket_client.read.1) = 0xFF
    · by_cases ht : toULong (e.millisAt s.millisCalls) > tt
      · rw [socketStreamFrom_inner_up e fuel tt str s h0 hr hff ht (hconn _)]
        exact ih tt str _ hr hz'
      · rw [socketStreamFrom_inner_early e fuel tt str s h0 hr hff ht]
        exact ih tt str _ hr hz'
    · rw [socketStreamFrom_inner_append e fuel tt str s h0 hr hff]
      exact ih tt _ _ hr hz'

/-- C1, failing input: the stream `A B 0xFF C D 0xFF` on a session with the
reading flag set.  While the link is up nothing is ever dispatched, whatever
the number of loop tests: the `0xFF` bytes do not end a frame.  When the link
is reported down after the deadline, the teardown dispatches one frame,
`"ABCD"`, not the two frames `"AB"` and `"CD"`. -/
theorem socketStream_two_frames_not_split :
    (∀ fuel, ∃ pos s, socketStream linkUp fuel BUFFER (sessionOn (twoFrames.map some) true)
        = .running pos s ∧ s.dispatched = []) ∧
    (∃ s, socketStream linkDown 12 BUFFER (sessionOn (twoFrames.map some) true) = .done s ∧
        s.dispatched = [[0x41, 0x42, 0x43, 0x44]]) := by
  constructor
  · intro fuel
    match fuel with
    | 0 => exact ⟨_, _, rfl, rfl⟩
    | fuel + 1 =>
      obtain ⟨str', s', hrun, hd, _⟩ := socketStreamFrom_no_zero linkUp (fun _ => rfl) fuel
        (toULong (toULong (linkUp.millisAt 0) + TIMEOUT_IN_MS)) []
        { sessionOn (twoFrames.map some) true with millisCalls := 1 } rfl (by decide)
      exact ⟨_, s', hrun, hd⟩
  · exact ⟨_, rfl, rfl⟩

/-- C2, failing input: the payload `"A"`.  `actionWrite` writes the bytes
`0x00 0x41 0xFF`; fed to the read loop on a link that stays up, the `0x00`
byte makes `socketStream` dispatch the empty frame, and the frame `"A"` is
never dispatched, whatever the number of loop tests. -/
theorem socketStream_round_trip_lost :
    (actionWrite (lit "A") (sessionOn [] true)).socket_client.tx = [0x00, 0x41, 0xFF] ∧
    (∀ fuel, ∃ pos s,
      socketStream linkUp fuel BUFFER (sessionOn ([0x00, 0x41, 0xFF].map some) true)
        = .running pos s ∧
      s.dispatched = (if fuel < 2 then [] else [[]]) ∧ lit "A" ∉ s.dispatched) := by
  refine ⟨rfl, ?_⟩
  intro fuel
  match fuel with
  | 0 => exact ⟨_, _, rfl, rfl, by decide⟩
  | 1 => exact ⟨_, _, rfl, rfl, by decide⟩
  | 2 => exact ⟨_, _, rfl, rfl, by decide⟩
  | fuel + 3 =>
    obtain ⟨str', s', hrun, hd, _⟩ := socketStreamFrom_no_zero linkUp (fun _ => rfl) fuel
      (toULong (toULong (linkUp.millisAt 1) + TIMEOUT_IN_MS)) []
      { sessionOn ([0x41, 0xFF].map some) true with millisCalls := 2, dispatched := [[]] }
      rfl (by decide)
    refine ⟨_, s', hrun, ?_, ?_⟩
    · rw [hd, if_neg (by omega)]
    · rw [hd]
      decide

/-! ## The frame loop: what `executeActions` leaves unchanged -/

theorem invoke_keeps (p : Str) (st st' : WebSocket) (i : Nat) (h : invoke p st i = .ok st') :
    st'.socket_reading = st.socket_reading ∧ st'.socket_client = st.socket_client ∧
    st'.socket_actions = st.socket_actions ∧
    st'.socket_actions_population = st.socket_actions_population ∧
    st'.dispatched = st.dispatched := by
  unfold invoke at h
  split at h
  · injection h with h
    subst h
    exact ⟨rfl, rfl, rfl, rfl, rfl⟩
  · exact absurd h (by simp)
  · exact absurd h (by simp)

theorem foldlM_invoke_keeps (p : Str) (l : List Nat) :
    ∀ (st st' : WebSocket), l.foldlM (invoke p) st = .ok st' →
      st'.socket_reading = st.socket_reading ∧ st'.socket_client = st.socket_client ∧
      st'.socket_actions = st.socket_actions ∧
      st'.socket_actions_population = st.socket_actions_population ∧
      st'.dispatched = st.dispatched := by
  induction l with
  | nil =>
    intro st st' h
    injection h with h
    subst h
    exact ⟨rfl, rfl, rfl, rfl, rfl⟩
  | cons i l ih =>
    intro st st' h
    rw [List.foldlM_cons] at h
    cases hstep : invoke p st i with
    | error f =>
      rw [hstep] at h
      exact absurd h (by simp [bind, Except.bind])
    | ok st1 =>
      rw [hstep] at h
      obtain ⟨h1, h2, h3, h4, h5⟩ := invoke_keeps p st st1 i hstep
      obtain ⟨k1, k2, k3, k4, k5⟩ := ih st1 st' h
      exact ⟨k1.trans h1, k2.trans h2, k3.trans h3, k4.trans h4, k5.trans h5⟩

/-- Whatever the table holds, a call of `executeActions` that returns leaves
the reading flag, the transport, the action table and its population as they
were, and records the payload as dispatched. -/
theorem executeActions_keeps (p : Str) (s s' : WebSocket) (h : executeActions p s = .ok s') :
    s'.socket_reading = s.socket_reading ∧ s'.socket_client = s.socket_client ∧
    s'.socket_actions = s.socket_actions ∧
    s'.socket_actions_population = s.socket_actions_population ∧
    s'.dispatched = s.dispatched ++ [p] :=
  foldlM_invoke_keeps p _ _ s' h

/-! ## The frame loop: timeout teardown -/

theorem socketStreamFrom_inner_exit_ok (e : Env) (fuel : Nat) (tt : Nat) (str : Str)
    (hs : List Action) (rest : List (Option Action)) (s : WebSocket)
    (h : toChar s.socket_client.read.1 = 0 ∨ s.socket_reading = false)
    (htab : s.socket_actions = hs.map some ++ rest)
    (hpop : s.socket_actions_population = hs.length) :
    socketStreamFrom e (fuel + 1) (.inner tt str) s
      = socketStreamFrom e fuel .outer
          { s with socket_client := s.socket_client.read.2,
                   dispatched := s.dispatched ++ [str],
                   calls := s.calls ++ hs.map (fun h => (h, str)) } := by
  rw [socketStreamFrom_inner_exit e fuel tt str s h,
    executeActions_ok str hs rest { s with socket_client := s.socket_client.read.2 } htab hpop]

theorem socketStreamFrom_done_torn_down (e : Env) :
    ∀ (fuel : Nat) (pos : Pos) (s s' : WebSocket),
      (s.socket_reading = true ∨
        (s.socket_client.flushed = true ∧ s.socket_client.stopped = true)) →
      socketStreamFrom e fuel pos s = .done s' →
      s'.socket_reading = false ∧ s'.socket_client.flushed = true ∧
        s'.socket_client.stopped = true := by
  intro fuel
  induction fuel with
  | zero =>
    intro pos s s' _ h
    exact absurd h (by simp [socketStreamFrom])
  | succ fuel ih =>
    intro pos s s' hinv h
    cases pos with
    | outer =>
      by_cases hr : s.socket_reading = true
      · rw [socketStreamFrom_outer_reading e _ s hr] at h
        exact ih _ _ _ (by exact Or.inl hr) h
      · have hr' : s.socket_reading = false := by simpa using hr
        rw [socketStreamFrom_outer_idle e _ s hr'] at h
        injection h with h
        subst h
        rcases hinv with hinv | hinv
        · exact absurd hinv hr
        · exact ⟨hr', hinv.1, hinv.2⟩
    | inner tt str =>
      by_cases hx : toChar s.socket_client.read.1 = 0 ∨ s.socket_reading = false
      · rw [socketStreamFrom_inner_exit e _ tt str s hx] at h
        cases hex : executeActions str { s with socket_client := s.socket_client.read.2 } with
        | error f =>
          rw [hex] at h
          exact absurd h (by simp)
        | ok s2 =>
          rw [hex] at h
          obtain ⟨k1, k2, _, _, _⟩ := executeActions_keeps str _ s2 hex
          refine ih _ _ _ ?_ h
          rcases hinv with hinv | hinv
          · exact Or.inl (k1.trans hinv)
          · refine Or.inr ⟨?_, ?_⟩
            · rw [k2]
              exact (read_keeps _).2.1.trans hinv.1
            · rw [k2]
              exact (read_keeps _).2.2.1.trans hinv.2
      · have h0 : toChar s.socket_client.read.1 ≠ 0 := fun h => hx (Or.inl h)
        have hr : s.socket_reading = true := by
          cases hb : s.socket_reading
          · exact absurd (Or.inr hb) hx
          · rfl
        by_cases hff : toUInt8 (toChar s.socket_client.read.1) = 0xFF
        · by_cases ht : toULong (e.millisAt s.millisCalls) > tt
          · cases hup : e.connectedAt s.connectedCalls with
            | true =>
              rw [socketStreamFrom_inner_up e _ tt str s h0 hr hff ht hup] at h
              exact ih _ _ _ (by exact Or.inl hr) h
            | false =>
              rw [socketStreamFrom_inner_down e _ tt str s h0 hr hff ht hup] at h
              exact ih _ _ _ (by exact Or.inr ⟨rfl, rfl⟩) h
          · rw [socketStreamFrom_inner_early e _ tt str s h0 hr hff ht] at h
            exact ih _ _ _ (by exact Or.inl hr) h
        · rw [socketStreamFrom_inner_append e _ tt str s h0 hr hff] at h
          exact ih _ _ _ (by exact Or.inl hr) h

theorem analyzeRequest_true_reading (bufferLength : Nat) (s : WebSocket)
    (h : (analyzeRequest bufferLength s).1 = true) :
    (analyzeRequest bufferLength s).2.socket_reading = true := by
  unfold analyzeRequest at h ⊢
  by_cases hc : contains (readHeader [] s.socket_client.rx).1 (lit "Upgrade: WebSocket") = true
  · simp only [hc, if_true]
  · simp only [hc] at h
    exact absurd h (by simp)

theorem analyzeRequest_false_calls (bufferLength : Nat) (s : WebSocket)
    (h : (analyzeRequest bufferLength s).1 = false) :
    (analyzeRequest bufferLength s).2.calls = s.calls ∧
    (analyzeRequest bufferLength s).2.dispatched = s.dispatched := by
  unfold analyzeRequest at h ⊢
  by_cases hc : contains (readHeader [] s.socket_client.rx).1 (lit "Upgrade: WebSocket") = true
  · simp only [hc, if_true] at h
    exact absurd h (by simp)
  · simp only [hc]
    exact ⟨rfl, rfl⟩

theorem connectionRequest_connected (e : Env) (fuel : Nat) (incoming : Client) (s : WebSocket)
    (hconn : e.connectedAt s.connectedCalls = true) :
    connectionRequest e fuel incoming s
      = if (analyzeRequest BUFFER
            { s with socket_client := incoming, connectedCalls := s.connectedCalls + 1 }).1
        then socketStream e fuel BUFFER (analyzeRequest BUFFER
            { s with socket_client := incoming, connectedCalls := s.connectedCalls + 1 }).2
        else .done (disconnectStream (analyzeRequest BUFFER
            { s with socket_client := incoming, connectedCalls := s.connectedCalls + 1 }).2) := by
  simp only [connectionRequest, connected, hconn, if_true]

/-- C10: when `connectionRequest` finds the client connected, every return
is through `disconnectStream`: in the state returned the reading flag is
false and the transport is flushed and closed.  When the validation fails the
method returns at once, in the state `disconnectStream` gives, without any
handler call and without any dispatch. -/
theorem connectionRequest_ends_idle (e : Env) (fuel : Nat) (incoming : Client) (s : WebSocket)
    (hconn : e.connectedAt s.connectedCalls = true) :
    (∀ s', connectionRequest e fuel incoming s = .done s' →
      s'.socket_reading = false ∧ s'.socket_client.flushed = true ∧
        s'.socket_client.stopped = true) ∧
    ((analyzeRequest BUFFER
        { s with socket_client := incoming, connectedCalls := s.connectedCalls + 1 }).1 = false →
      ∃ s', connectionRequest e fuel incoming s = .done s' ∧ s'.calls = s.calls ∧
        s'.dispatched = s.dispatched) := by
  rw [connectionRequest_connected e fuel incoming s hconn]
  cases hup : (analyzeRequest BUFFER
      { s with socket_client := incoming, connectedCalls := s.connectedCalls + 1 }).1 with
  | true =>
    refine ⟨?_, fun h => absurd h (by simp)⟩
    intro s' h
    simp only [if_true] at h
    exact socketStreamFrom_done_torn_down e fuel .outer _ s'
      (Or.inl (analyzeRequest_true_reading _ _ hup)) h
  | false =>
    obtain ⟨hc, hd⟩ := analyzeRequest_false_calls _ _ hup
    refine ⟨?_, fun _ => ⟨_, rfl, hc, hd⟩⟩
    intro s' h
    simp only [Bool.false_eq_true, if_false] at h
    injection h with h
    subst h
    exact ⟨rfl, rfl, rfl⟩

/-- Instances of both ends of a connection cycle: an upgrade request
followed by silence on a link that is lost, and a plain `GET`. -/
theorem connectionRequest_ends_idle_witness :
    (∃ s', connectionRequest linkLost 8 (accepted (upgradeField.map some))
        (WebSocket.new (lit "/") 8080 false) = .done s' ∧
      s'.socket_reading = false ∧ s'.socket_client.flushed = true ∧
      s'.socket_client.stopped = true) ∧
    (∃ s', connectionRequest linkLost 8 (accepted (plainGet.map some))
        (WebSocket.new (lit "/") 8080 false) = .done s' ∧ s'.calls = [] ∧
      s'.dispatched = []) :=
  ⟨⟨_, rfl, (connectionRequest_ends_idle linkLost 8 (accepted (upgradeField.map some))
      (WebSocket.new (lit "/") 8080 false) rfl).1 _ rfl⟩,
   (connectionRequest_ends_idle linkLost 8 (accepted (plainGet.map some))
      (WebSocket.new (lit "/") 8080 false) rfl).2 (by decide)⟩

/-! ## The receive path at single bytes -/

/-- C11, failing input: the bytes `0x41 0x00` on a session in the frame loop
with one handler.  After the test that reads `0x41` the payload accumulated
is `"A"` and nothing is dispatched; the test that reads `0x00` does not append
it: it ends the pass and dispatches `"A"` to the handler. -/
theorem socketStream_zero_byte_ends_pass :
    (∃ tt s, socketStream linkUp 2 BUFFER (streamingSession [some 0x41, some 0x00] [7])
        = .running (.inner tt [0x41]) s ∧ s.dispatched = [] ∧ s.calls = []) ∧
    (∃ s, socketStream linkUp 3 BUFFER (streamingSession [some 0x41, some 0x00] [7])
        = .running .outer s ∧ s.dispatched = [[0x41]] ∧ s.calls = [(7, [0x41])] ∧
      s.socket_client.rx = []) :=
  ⟨⟨_, _, rfl, rfl, rfl⟩, ⟨_, rfl, rfl, rfl, rfl⟩⟩

/-- C13, failing input: the bytes `0x41 0x42` without terminator, then
silence, on a session with one handler whose link is reported down after the
deadline.  After seven loop tests the teardown has run (flag cleared,
transport closed) with `"AB"` accumulated and no handler called yet; the next
test leaves the inner loop and `executeActions` calls the handler with the
partial payload `"AB"`, after the teardown. -/
theorem socketStream_partial_frame_dispatched :
    (∃ tt s, socketStream linkDown 7 BUFFER (streamingSession [some 0x41, some 0x42] [7])
        = .running (.inner tt [0x41, 0x42]) s ∧ s.socket_reading = false ∧
      s.socket_client.stopped = true ∧ s.calls = [] ∧ s.dispatched = []) ∧
    (∃ s, socketStream linkDown 9 BUFFER (streamingSession [some 0x41, some 0x42] [7])
        = .done s ∧ s.calls = [(7, [0x41, 0x42])] ∧ s.dispatched = [[0x41, 0x42]]) :=
  ⟨⟨_, _, rfl, rfl, rfl, rfl, rfl⟩, ⟨_, rfl, rfl, rfl⟩⟩

/-! ## The configuration and the validation -/

/-- C15: `analyzeRequest` run on a session whose URL prefix and port were
replaced gives the same decision and the same state, up to that replacement,
as on the session itself; in particular the bytes written to the client are
the same, and the same holds for two objects built by the constructor with
different arguments.  The configured prefix is never looked at. -/
theorem analyzeRequest_ignores_configuration (s : WebSocket) (bufferLength : Nat)
    (urlPrefix : Str) (port : Nat) :
    analyzeRequest bufferLength { s with socket_urlPrefix := urlPrefix, port := port }
      = ((analyzeRequest bufferLength s).1,
         { (analyzeRequest bufferLength s).2 with
           socket_urlPrefix := urlPrefix, port := port }) ∧
    (analyzeRequest bufferLength { s with socket_urlPrefix := urlPrefix, port := port }).1
      = (analyzeRequest bufferLength s).1 ∧
    (analyzeRequest bufferLength
        { s with socket_urlPrefix := urlPrefix, port := port }).2.socket_client
      = (analyzeRequest bufferLength s).2.socket_client ∧
    (∀ (c : Client) (urlPrefix' : Str) (port' : Nat) (reading0 : Bool),
      (analyzeRequest bufferLength
          { WebSocket.new urlPrefix port reading0 with socket_client := c }).1
        = (analyzeRequest bufferLength
          { WebSocket.new urlPrefix' port' reading0 with socket_client := c }).1 ∧
      (analyzeRequest bufferLength
          { WebSocket.new urlPrefix port reading0 with socket_client := c }).2.socket_client.tx
        = (analyzeRequest bufferLength
          { WebSocket.new urlPrefix' port' reading0 with socket_client := c }).2.socket_client.tx) := by
  have key : ∀ (t : WebSocket) (u : Str) (q : Nat),
      analyzeRequest bufferLength { t with socket_urlPrefix := u, port := q }
        = ((analyzeRequest bufferLength t).1,
           { (analyzeRequest bufferLength t).2 with socket_urlPrefix := u, port := q }) := by
    intro t u q
    unfold analyzeRequest
    by_cases hc : contains (readHeader [] t.socket_client.rx).1 (lit "Upgrade: WebSocket") = true
    · simp only [hc, if_true]
      rfl
    · simp only [hc]
      rfl
  refine ⟨key s urlPrefix port, ?_, ?_, ?_⟩
  · rw [key]
  · rw [key]
  · intro c urlPrefix' port' reading0
    have h1 := key { WebSocket.new urlPrefix' port' reading0 with socket_client := c }
      urlPrefix port
    have h2 : ({ WebSocket.new urlPrefix' port' reading0 with
        socket_client := c, socket_urlPrefix := urlPrefix, port := port } : WebSocket)
        = { WebSocket.new urlPrefix port reading0 with socket_client := c } := rfl
    rw [h2] at h1
    rw [h1]
    exact ⟨rfl, rfl⟩

/-! ## The deadline near the wrap of the counter -/

/-- Where the deadline arithmetic is sound: when neither the deadline nor the
reading wraps, the test `currentTime > timeoutTime` holds only after more
than `TIMEOUT_IN_MS` milliseconds. -/
theorem deadline_sound_without_wrap (start now : Nat)
    (hstart : start + TIMEOUT_IN_MS < 2 ^ 32) (hnow : now < 2 ^ 32)
    (htest : toULong now > toULong (toULong start + TIMEOUT_IN_MS)) :
    now > start + TIMEOUT_IN_MS := by
  simp only [toULong, TIMEOUT_IN_MS] at *
  omega

/-- C17, failing input: a pass that starts 1000 ms before the counter wraps,
on a silent peer whose link is reported down.  The deadline wraps to 29000,
the reading taken 10 ms after the start is above it, and the teardown fires:
`socketStream` returns with the flag cleared and the transport closed after
two readings of the clock that are 10 ms apart. -/
theorem socketStream_timeout_fires_early_at_wrap :
    toULong (toULong (wrapClock.millisAt 0) + TIMEOUT_IN_MS) = 29000 ∧
    wrapClock.millisAt 1 = wrapClock.millisAt 0 + 10 ∧
    (∃ s, socketStream wrapClock 4 BUFFER (streamingSession [] [7]) = .done s ∧
      s.socket_reading = false ∧ s.socket_client.stopped = true ∧ s.millisCalls = 2) :=
  ⟨by decide, by decide, ⟨_, rfl, rfl, rfl, rfl⟩⟩

/-! ## Properties kept by every step of the frame loop -/

theorem invoke_frame (p : Str) (st st' : WebSocket) (i : Nat) (h : invoke p st i = .ok st') :
    st' = { st with calls := st'.calls } := by
  unfold invoke at h
  split at h
  · injection h with h
    subst h
    rfl
  · exact absurd h (by simp)
  · exact absurd h (by simp)

theorem foldlM_invoke_frame (p : Str) (l : List Nat) :
    ∀ (st st' : WebSocket), l.foldlM (invoke p) st = .ok st' →
      st' = { st with calls := st'.calls } := by
  induction l with
  | nil =>
    intro st st' h
    injection h with h
    subst h
    rfl
  | cons i l ih =>
    intro st st' h
    rw [List.foldlM_cons] at h
    cases hstep : invoke p st i with
    | error f =>
      rw [hstep] at h
      exact absurd h (by simp [bind, Except.bind])
    | ok st1 =>
      rw [hstep] at h
      have h1 := invoke_frame p st st1 i hstep
      have h2 := ih st1 st' h
      rw [h2, h1]

/-- A call of `executeActions` that returns changes the call log and the
list of dispatched payloads, and nothing else. -/
theorem executeActions_frame (p : Str) (s s' : WebSocket) (h : executeActions p s = .ok s') :
    s' = { s with dispatched := s.dispatched ++ [p], calls := s'.calls } :=
  foldlM_invoke_frame p _ _ s' h

/-- Induction over the loops of `socketStream`: a property of the session
kept by a read, by a reading of the clock, by a question to the link followed
by what the loop does with the answer, and by `executeActions`, holds in the
state carried by the result of every run. -/
theorem socketStreamFrom_invariant (e : Env) (P : WebSocket → Prop)
    (hread : ∀ s, P s → P { s with socket_client := s.socket_client.read.2 })
    (hmillis : ∀ s, P s → P { s with millisCalls := s.millisCalls + 1 })
    (hup : ∀ s, P s → s.socket_reading = true → e.connectedAt s.connectedCalls = true →
      P { s with connectedCalls := s.connectedCalls + 1 })
    (hdown : ∀ s, P s → s.socket_reading = true → e.connectedAt s.connectedCalls = false →
      P (disconnectStream { s with connectedCalls := s.connectedCalls + 1 }))
    (hexec : ∀ s s2 str, P s → executeActions str s = .ok s2 → P s2) :
    ∀ (fuel : Nat) (pos : Pos) (s s' : WebSocket), P s →
      (socketStreamFrom e fuel pos s).state? = some s' → P s' := by
  intro fuel
  induction fuel with
  | zero =>
    intro pos s s' hP h
    have hs : s = s' := by
      simpa [socketStreamFrom, Run.state?] using h
    rw [← hs]
    exact hP
  | succ fuel ih =>
    intro pos s s' hP h
    cases pos with
    | outer =>
      by_cases hr : s.socket_reading = true
      · rw [socketStreamFrom_outer_reading e _ s hr] at h
        exact ih _ _ _ (hmillis s hP) h
      · have hr' : s.socket_reading = false := by simpa using hr
        rw [socketStreamFrom_outer_idle e _ s hr'] at h
        have hs : s = s' := by simpa [Run.state?] using h
        rw [← hs]
        exact hP
    | inner tt str =>
      by_cases hx : toChar s.socket_client.read.1 = 0 ∨ s.socket_reading = false
      · rw [socketStreamFrom_inner_exit e _ tt str s hx] at h
        cases hex : executeActions str { s with socket_client := s.socket_client.read.2 } with
        | error f =>
          rw [hex] at h
          exact absurd h (by simp [Run.state?])
        | ok s2 =>
          rw [hex] at h
          exact ih _ _ _ (hexec _ s2 str (hread s hP) hex) h
      · have h0 : toChar s.socket_client.read.1 ≠ 0 := fun h => hx (Or.inl h)
        have hr : s.socket_reading = true := by
          cases hb : s.socket_reading
          · exact absurd (Or.inr hb) hx
          · rfl
        by_cases hff : toUInt8 (toChar s.socket_client.read.1) = 0xFF
        · by_cases ht : toULong (e.millisAt s.millisCalls) > tt
          · cases hc : e.connectedAt s.connectedCalls with
            | true =>
              rw [socketStreamFrom_inner_up e _ tt str s h0 hr hff ht hc] at h
              exact ih _ _ _ (hup _ (hmillis _ (hread s hP)) hr hc) h
            | false =>
              rw [socketStreamFrom_inner_down e _ tt str s h0 hr hff ht hc] at h
              exact ih _ _ _ (hdown _ (hmillis _ (hread s hP)) hr hc) h
          · rw [socketStreamFrom_inner_early e _ tt str s h0 hr hff ht] at h
            exact ih _ _ _ (hmillis _ (hread s hP)) h
        · rw [socketStreamFrom_inner_append e _ tt str s h0 hr hff] at h
          exact ih _ _ _ (hread s hP) h

/-! ## The registry is append-only -/

/-- C12: in a run of `socketStream` started with the reading flag set, the
flag can be found cleared only after `disconnectStream` ran right after the
latest question to the link, and the answer to that question was "not
connected", whatever the clock reads.  So when the link is reported connected
each time it is asked, the flag stays set and the transport is not closed,
however many loop tests are made and however far the clock is past the
deadline. -/
theorem socketStream_teardown_only_when_down (e : Env) (fuel : Nat)
    (socketBufferLength : Nat) (s s' : WebSocket) (hr : s.socket_reading = true)
    (hrun : (socketStream e fuel socketBufferLength s).state? = some s') :
    (s'.socket_reading = false →
      s'.socket_client.stopped = true ∧ s.connectedCalls < s'.connectedCalls ∧
      e.connectedAt (s'.connectedCalls - 1) = false) ∧
    ((∀ n, s.connectedCalls ≤ n → e.connectedAt n = true) →
      s'.socket_reading = true ∧ s'.socket_client.stopped = s.socket_client.stopped) := by
  have key := socketStreamFrom_invariant e
    (fun t => (t.socket_reading = true ∧ t.socket_client.stopped = s.socket_client.stopped ∧
        s.connectedCalls ≤ t.connectedCalls) ∨
      (t.socket_reading = false ∧ t.socket_client.stopped = true ∧
        s.connectedCalls < t.connectedCalls ∧ e.connectedAt (t.connectedCalls - 1) = false))
    ?_ ?_ ?_ ?_ ?_ fuel .outer s s' (Or.inl ⟨hr, rfl, Nat.le_refl _⟩) hrun
  · rcases key with ⟨k1, k2, _⟩ | ⟨k1, k2, k3, k4⟩
    · refine ⟨fun h => absurd k1 (by simp [h]), fun _ => ⟨k1, k2⟩⟩
    · refine ⟨fun _ => ⟨k2, k3, k4⟩, fun hup => ?_⟩
      have := hup (s'.connectedCalls - 1) (by omega)
      rw [k4] at this
      exact absurd this (by simp)
  · intro t hP
    rcases hP with ⟨k1, k2, k3⟩ | ⟨k1, k2, k3, k4⟩
    · exact Or.inl ⟨k1, (read_keeps _).2.2.1.trans k2, k3⟩
    · exact Or.inr ⟨k1, (read_keeps _).2.2.1.trans k2, k3, k4⟩
  · intro t hP
    exact hP
  · intro t hP htr _
    rcases hP with ⟨k1, k2, k3⟩ | ⟨k1, _, _, _⟩
    · exact Or.inl ⟨k1, k2, Nat.le_succ_of_le k3⟩
    · exact absurd htr (by simp [k1])
  · intro t hP htr hdown
    rcases hP with ⟨_, _, k3⟩ | ⟨k1, _, _, _⟩
    · exact Or.inr ⟨rfl, rfl, Nat.lt_succ_of_le k3, hdown⟩
    · exact absurd htr (by simp [k1])
  · intro t t2 str hP hex
    rw [executeActions_frame str t t2 hex]
    exact hP

/-- Instance of the conditional timeout: a silent peer whose link stays up.
After forty loop tests the clock reads nine seconds past the deadline, the
link was asked nine times, and the session is still reading, not closed. -/
theorem socketStream_teardown_only_when_down_witness :
    ∃ s', (socketStream linkUp 40 BUFFER (streamingSession [] [10])).state? = some s' ∧
      s'.millisCalls = 40 ∧ s'.connectedCalls = 9 ∧
      s'.socket_reading = true ∧ s'.socket_client.stopped = false :=
  ⟨_, rfl, rfl, rfl,
    (socketStream_teardown_only_when_down linkUp 40 BUFFER (streamingSession [] [10]) _ rfl
      rfl).2 (fun _ _ => rfl)⟩

/-! ## What the read loop delimits on -/

theorem read_nil (c : Client) (h : c.rx = []) : c.read = (-1, c) := by
  simp [Client.read, h]

theorem read_cons (c : Client) (x : Option Byte) (rest : List (Option Byte))
    (h : c.rx = x :: rest) : c.read = (readResult x, { c with rx := rest }) := by
  simp [Client.read, h]

theorem read_rx_tail (c : Client) : c.read.2.rx = c.rx.tail := by
  cases hrx : c.rx with
  | nil => rw [read_nil c hrx]; simp [hrx]
  | cons x rest => rw [read_cons c x rest hrx]; simp

theorem splitAtZero_clean (rx : List (Option Byte)) :
    ∀ acc : Str, ((0x00 : Byte) ∉ acc ∧ (0xFF : Byte) ∉ acc) →
      ∀ p ∈ (splitAtZero acc rx).1 ++ [(splitAtZero acc rx).2],
        (0x00 : Byte) ∉ p ∧ (0xFF : Byte) ∉ p := by
  induction rx with
  | nil =>
    intro acc hacc p hp
    simp only [splitAtZero, List.nil_append, List.mem_singleton] at hp
    rw [hp]
    exact hacc
  | cons x rest ih =>
    intro acc hacc p hp
    cases x with
    | none => exact ih acc hacc p (by simpa [splitAtZero] using hp)
    | some b =>
      by_cases hb0 : b = 0x00
      · simp only [splitAtZero, hb0, if_true, List.cons_append, List.mem_cons] at hp
        rcases hp with hp | hp
        · rw [hp]
          exact hacc
        · exact ih [] ⟨by simp, by simp⟩ p hp
      · by_cases hbf : b = 0xFF
        · simp only [splitAtZero, hb0, hbf, if_false, if_true] at hp
          exact ih acc hacc p hp
        · simp only [splitAtZero, hb0, hbf, if_false] at hp
          refine ih (acc ++ [b]) ⟨?_, ?_⟩ p hp
          · simp only [List.mem_append, List.mem_singleton, not_or]
            exact ⟨hacc.1, fun h => hb0 h.symm⟩
          · simp only [List.mem_append, List.mem_singleton, not_or]
            exact ⟨hacc.2, fun h => hbf h.symm⟩

theorem Decoded_skip (acc : Str) (x : Option Byte) (rest : List (Option Byte))
    (d0 : List Str) (r : Run) (hx : x = none ∨ x = some 0xFF)
    (h : Decoded acc rest d0 r) : Decoded acc (x :: rest) d0 r := by
  obtain ⟨pre, post, hsplit, hcases⟩ := h
  have hs : splitAtZero acc (x :: pre) = splitAtZero acc pre := by
    rcases hx with hx | hx
    · subst hx; simp [splitAtZero]
    · subst hx; simp [splitAtZero]
  refine ⟨x :: pre, post, by simp [hsplit], ?_⟩
  rw [hs]
  exact hcases

theorem Decoded_append (acc : Str) (b : Byte) (rest : List (Option Byte))
    (d0 : List Str) (r : Run) (hb0 : b ≠ 0x00) (hbf : b ≠ 0xFF)
    (h : Decoded (acc ++ [b]) rest d0 r) : Decoded acc (some b :: rest) d0 r := by
  obtain ⟨pre, post, hsplit, hcases⟩ := h
  have hs : splitAtZero acc (some b :: pre) = splitAtZero (acc ++ [b]) pre := by
    simp [splitAtZero, hb0, hbf]
  refine ⟨some b :: pre, post, by simp [hsplit], ?_⟩
  rw [hs]
  exact hcases

theorem Decoded_zero (acc : Str) (rest : List (Option Byte)) (d0 : List Str) (r : Run)
    (h : Decoded [] rest (d0 ++ [acc]) r) : Decoded acc (some 0x00 :: rest) d0 r := by
  obtain ⟨pre, post, hsplit, hcases⟩ := h
  have hs : splitAtZero acc (some 0x00 :: pre)
      = (acc :: (splitAtZero [] pre).1, (splitAtZero [] pre).2) := by
    simp [splitAtZero]
  refine ⟨some 0x00 :: pre, post, by simp [hsplit], ?_⟩
  rw [hs]
  rcases hcases with ⟨pos, s', h1, h2, h3, h4⟩ | ⟨s', h1, h2, h3, h4⟩
  · exact Or.inl ⟨pos, s', h1, h2, h3, by rw [h4]; simp⟩
  · exact Or.inr ⟨s', h1, h2, h3, by rw [h4]; simp⟩

theorem Decoded_congr (acc acc' : Str) (rx rx' : List (Option Byte)) (d d' : List Str)
    (r : Run) (h : Decoded acc rx d r) (ha : acc = acc') (hrx : rx = rx') (hd : d = d') :
    Decoded acc' rx' d' r := by
  subst ha hrx hd
  exact h

/-- Once the reading flag is cleared, the next test of the inner loop makes
one read, leaves the pass and dispatches what was accumulated; the outer
test then ends `socketStream`. -/
theorem socketStreamFrom_torn_down (e : Env) (hs : List Action)
    (rest : List (Option Action)) (fuel : Nat) (tt : Nat) (acc : Str) (s : WebSocket)
    (hr : s.socket_reading = false) (htab : s.socket_actions = hs.map some ++ rest)
    (hpop : s.socket_actions_population = hs.length) :
    Decoded acc s.socket_client.rx s.dispatched
      (socketStreamFrom e fuel (.inner tt acc) s) := by
  refine ⟨[], s.socket_client.rx, by simp, ?_⟩
  match fuel with
  | 0 => exact Or.inl ⟨_, s, rfl, rfl, by simp [splitAtZero, Pos.acc], by simp [splitAtZero]⟩
  | 1 =>
    rw [socketStreamFrom_inner_exit_ok e 0 tt acc hs rest s (Or.inr hr) htab hpop]
    exact Or.inr ⟨_, Or.inl rfl, hr, read_rx_tail _, by simp [splitAtZero]⟩
  | fuel + 2 =>
    rw [socketStreamFrom_inner_exit_ok e (fuel + 1) tt acc hs rest s (Or.inr hr) htab hpop,
      socketStreamFrom_outer_idle e fuel
        { s with socket_client := s.socket_client.read.2,
                 dispatched := s.dispatched ++ [acc],
                 calls := s.calls ++ hs.map (fun h => (h, acc)) } hr]
    exact Or.inr ⟨_, Or.inr rfl, hr, read_rx_tail _, by simp [splitAtZero]⟩

/-- The frame loop follows `splitAtZero`: started with the reading flag set
on a registry that holds the handlers `hs`, after any number of loop tests
the result is related to the read script as `Decoded` says. -/
theorem socketStreamFrom_decoded (e : Env) (hs : List Action) (rest : List (Option Action)) :
    ∀ (fuel : Nat) (pos : Pos) (s : WebSocket), s.socket_reading = true →
      s.socket_actions = hs.map some ++ rest → s.socket_actions_population = hs.length →
      Decoded pos.acc s.socket_client.rx s.dispatched (socketStreamFrom e fuel pos s) := by
  intro fuel
  induction fuel with
  | zero =>
    intro pos s _ _ _
    exact ⟨[], s.socket_client.rx, by simp,
      Or.inl ⟨pos, s, rfl, rfl, by simp [splitAtZero], by simp [splitAtZero]⟩⟩
  | succ fuel ih =>
    intro pos s hr htab hpop
    cases pos with
    | outer =>
      rw [socketStreamFrom_outer_reading e fuel s hr]
      exact ih (.inner (toULong (toULong (e.millisAt s.millisCalls) + TIMEOUT_IN_MS)) [])
        { s with millisCalls := s.millisCalls + 1 } hr htab hpop
    | inner tt acc =>
      have hskip : toChar s.socket_client.read.1 ≠ 0 →
          toUInt8 (toChar s.socket_client.read.1) = 0xFF →
          Decoded acc s.socket_client.read.2.rx s.dispatched
            (socketStreamFrom e (fuel + 1) (.inner tt acc) s) := by
        intro h0 hff
        by_cases ht : toULong (e.millisAt s.millisCalls) > tt
        · cases hc : e.connectedAt s.connectedCalls with
          | true =>
            rw [socketStreamFrom_inner_up e fuel tt acc s h0 hr hff ht hc]
            exact ih (.inner tt acc)
              { s with socket_client := s.socket_client.read.2,
                       millisCalls := s.millisCalls + 1,
                       connectedCalls := s.connectedCalls + 1 } hr htab hpop
          | false =>
            rw [socketStreamFrom_inner_down e fuel tt acc s h0 hr hff ht hc]
            exact socketStreamFrom_torn_down e hs rest fuel tt acc
              (disconnectStream { s with socket_client := s.socket_client.read.2,
                                         millisCalls := s.millisCalls + 1,
                                         connectedCalls := s.connectedCalls + 1 })
              rfl htab hpop
        · rw [socketStreamFrom_inner_early e fuel tt acc s h0 hr hff ht]
          exact ih (.inner tt acc)
            { s with socket_client := s.socket_client.read.2,
                     millisCalls := s.millisCalls + 1 } hr htab hpop
      cases hrx : s.socket_client.rx with
      | nil =>
        have hread := read_nil s.socket_client hrx
        have hval : s.socket_client.read.1 = -1 := by simp [hread]
        have h0 : toChar s.socket_client.read.1 ≠ 0 := by
          rw [hval, toChar_neg_one]; decide
        have hff : toUInt8 (toChar s.socket_client.read.1) = 0xFF := by
          rw [hval, toChar_neg_one, toUInt8_neg_one]
        have hrx2 : s.socket_client.read.2.rx = [] := by rw [hread]; exact hrx
        exact Decoded_congr _ _ _ _ _ _ _ (hskip h0 hff) rfl hrx2 rfl
      | cons x xs =>
        have hread := read_cons s.socket_client x xs hrx
        have hrx2 : s.socket_client.read.2.rx = xs := by rw [hread]
        cases x with
        | none =>
          have hval : s.socket_client.read.1 = -1 := by simp [hread, readResult]
          have h0 : toChar s.socket_client.read.1 ≠ 0 := by
            rw [hval, toChar_neg_one]; decide
          have hff : toUInt8 (toChar s.socket_client.read.1) = 0xFF := by
            rw [hval, toChar_neg_one, toUInt8_neg_one]
          exact Decoded_skip acc none xs _ _ (Or.inl rfl)
            (Decoded_congr _ _ _ _ _ _ _ (hskip h0 hff) rfl hrx2 rfl)
        | some b =>
          have hval : s.socket_client.read.1 = (b.val : Int) := by rw [hread]; rfl
          by_cases hb0 : b = 0x00
          · have hx : toChar s.socket_client.read.1 = 0 := by
              rw [hval]; exact (toChar_val_eq_zero b).mpr hb0
            rw [socketStreamFrom_inner_exit_ok e fuel tt acc hs rest s (Or.inl hx) htab hpop]
            have h2 := ih .outer
              { s with socket_client := s.socket_client.read.2,
                       dispatched := s.dispatched ++ [acc],
                       calls := s.calls ++ hs.map (fun h => (h, acc)) } hr htab hpop
            rw [hb0]
            exact Decoded_zero acc xs _ _ (Decoded_congr _ _ _ _ _ _ _ h2 rfl hrx2 rfl)
          · have h0 : toChar s.socket_client.read.1 ≠ 0 := by
              rw [hval]; exact fun h => hb0 ((toChar_val_eq_zero b).mp h)
            have hbyte : toUInt8 (toChar s.socket_client.read.1) = b := by
              rw [hval]; exact toUInt8_toChar_val b
            by_cases hbf : b = 0xFF
            · have hff : toUInt8 (toChar s.socket_client.read.1) = 0xFF := by
                rw [hbyte]; exact hbf
              exact Decoded_skip acc (some b) xs _ _ (Or.inr (by rw [hbf]))
                (Decoded_congr _ _ _ _ _ _ _ (hskip h0 hff) rfl hrx2 rfl)
            · have hff : toUInt8 (toChar s.socket_client.read.1) ≠ 0xFF := by
                rw [hbyte]; exact hbf
              rw [socketStreamFrom_inner_append e fuel tt acc s h0 hr hff]
              have h2 := ih (.inner tt (acc ++ [toUInt8 (toChar s.socket_client.read.1)]))
                { s with socket_client := s.socket_client.read.2 } hr htab hpop
              exact Decoded_append acc b xs _ _ hb0 hbf
                (Decoded_congr _ _ _ _ _ _ _ h2 (by simp [Pos.acc, hbyte]) hrx2 rfl)

theorem splitAtZero_eq_modifyHead (rx : List (Option Byte)) :
    ∀ acc : Str, (splitAtZero acc rx).1 ++ [(splitAtZero acc rx).2]
      = List.modifyHead (fun piece => acc ++ piece)
          ((rx.reduceOption.splitOnP (fun b => b == 0x00)).map
            (List.filter (fun b => b != 0xFF))) := by
  induction rx with
  | nil =>
    intro acc
    simp [splitAtZero, List.splitOnP_nil, List.modifyHead]
  | cons x rest ih =>
    intro acc
    cases x with
    | none =>
      rw [List.reduceOption_cons_of_none]
      exact ih acc
    | some b =>
      rw [List.reduceOption_cons_of_some, List.splitOnP_cons]
      cases hX : List.splitOnP (fun b => b == 0x00) rest.reduceOption with
      | nil => exact absurd hX (List.splitOnP_ne_nil _ _)
      | cons hd tl =>
        have ih0 := ih []
        have ih1 := ih acc
        have ih2 := ih (acc ++ [b])
        rw [hX] at ih0 ih1 ih2
        simp only [List.map_cons, List.modifyHead, List.nil_append] at ih0 ih1 ih2
        by_cases hb0 : b = 0x00
        · have hs : splitAtZero acc (some b :: rest)
              = (acc :: (splitAtZero [] rest).1, (splitAtZero [] rest).2) := by
            simp [splitAtZero, hb0]
          rw [hs]
          simp only [hb0, beq_self_eq_true, if_true, List.map_cons, List.modifyHead,
            List.filter_nil, List.append_nil, List.cons_append]
          rw [ih0]
        · by_cases hbf : b = 0xFF
          · have hs : splitAtZero acc (some b :: rest) = splitAtZero acc rest := by
              simp [splitAtZero, hbf]
            have hne : (b == 0x00) = false := by simp [hb0]
            rw [hs, ih1]
            simp [hne, hbf, List.modifyHead]
          · have hs : splitAtZero acc (some b :: rest) = splitAtZero (acc ++ [b]) rest := by
              simp [splitAtZero, hb0, hbf]
            have hne : (b == 0x00) = false := by simp [hb0]
            rw [hs, ih2]
            simp [hne, hbf, List.modifyHead]

/-- The pieces given by `splitAtZero` are those of the library function
`List.splitOn`: the bytes of the script, split on `0x00`, each piece with its
`0xFF` bytes filtered out. -/
theorem splitAtZero_eq_splitOn (rx : List (Option Byte)) :
    (splitAtZero [] rx).1 ++ [(splitAtZero [] rx).2]
      = (rx.reduceOption.splitOn 0x00).map (List.filter (fun b => b != 0xFF)) := by
  rw [splitAtZero_eq_modifyHead rx []]
  cases hX : List.splitOnP (fun b => b == (0x00 : Byte)) rx.reduceOption with
  | nil => exact absurd hX (List.splitOnP_ne_nil _ _)
  | cons hd tl => simp [List.splitOn, hX, List.modifyHead]

/-- C16: what `socketStream` dispatches, for every read script, every
behaviour of the clock and of the link and every number of loop tests, on a
session with the reading flag set.  Let `pre` be the part of the script read
with the flag set.  The payloads handed to `executeActions` are the pieces of
`pre` that a `0x00` byte ends, in order, with the `0xFF` bytes and the `-1`
sentinels left out; the piece after the last `0x00` is the payload being
accumulated, and it is dispatched too, once, only when the flag was cleared
and the next loop test, after one more read, left the pass.  No payload holds
a `0x00` or a `0xFF` byte. -/
theorem socketStream_delimits_on_zero (e : Env) (fuel : Nat) (socketBufferLength : Nat)
    (s : WebSocket) (hs : List Action) (rest : List (Option Action))
    (hr : s.socket_reading = true) (htab : s.socket_actions = hs.map some ++ rest)
    (hpop : s.socket_actions_population = hs.length) :
    ∃ pre post, s.socket_client.rx = pre ++ post ∧
      ((∃ pos s', socketStream e fuel socketBufferLength s = .running pos s' ∧
          s'.socket_client.rx = post ∧ pos.acc = (splitAtZero [] pre).2 ∧
          s'.dispatched = s.dispatched ++ (splitAtZero [] pre).1) ∨
       (∃ s', (socketStream e fuel socketBufferLength s = .running .outer s' ∨
            socketStream e fuel socketBufferLength s = .done s') ∧
          s'.socket_reading = false ∧ s'.socket_client.rx = post.tail ∧
          s'.dispatched
            = s.dispatched ++ (splitAtZero [] pre).1 ++ [(splitAtZero [] pre).2])) ∧
      (∀ p ∈ (splitAtZero [] pre).1 ++ [(splitAtZero [] pre).2],
        (0x00 : Byte) ∉ p ∧ (0xFF : Byte) ∉ p) := by
  obtain ⟨pre, post, h1, h2⟩ := socketStreamFrom_decoded e hs rest fuel .outer s hr htab hpop
  exact ⟨pre, post, h1, h2, splitAtZero_clean pre [] ⟨by simp, by simp⟩⟩

/-- Instance of the delimiting: the script `interrupted` on a link reported
down.  `"A"` is dispatched at the `0x00` byte, `"B"` at the teardown; the
byte `C` is read by the loop test that leaves the pass and is lost, and `D`
is never read. -/
theorem socketStream_delimits_on_zero_witness :
    (∃ pre post, interrupted = pre ++ post ∧
      ((∃ pos s', socketStream linkDown 12 BUFFER (streamingSession interrupted [7])
            = .running pos s' ∧
          s'.socket_client.rx = post ∧ pos.acc = (splitAtZero [] pre).2 ∧
          s'.dispatched = [] ++ (splitAtZero [] pre).1) ∨
       (∃ s', (socketStream linkDown 12 BUFFER (streamingSession interrupted [7])
              = .running .outer s' ∨
            socketStream linkDown 12 BUFFER (streamingSession interrupted [7]) = .done s') ∧
          s'.socket_reading = false ∧ s'.socket_client.rx = post.tail ∧
          s'.dispatched = [] ++ (splitAtZero [] pre).1 ++ [(splitAtZero [] pre).2])) ∧
      (∀ p ∈ (splitAtZero [] pre).1 ++ [(splitAtZero [] pre).2],
        (0x00 : Byte) ∉ p ∧ (0xFF : Byte) ∉ p)) ∧
    (∃ s', socketStream linkDown 12 BUFFER (streamingSession interrupted [7]) = .done s' ∧
      s'.dispatched = [[0x41], [0x42]] ∧ s'.socket_client.rx = [some 0x44]) ∧
    splitAtZero [] (interrupted.take 7) = ([[0x41]], [0x42]) :=
  ⟨socketStream_delimits_on_zero linkDown 12 BUFFER (streamingSession interrupted [7]) [7]
      [none, none, none, none] rfl rfl rfl,
    ⟨_, rfl, rfl, rfl⟩, by decide⟩

end WebSocketArduino
